import Mathlib

/-!
Verification development for the cache-picker expression language
(tokenizer / parser / unit and quantity model / scope model).

The parser (`src/script/code/Parser.ts`) and the arithmetic dispatch layer
(`src/script/code/Operations.ts`) are embedded directly from their sources.
The `Scope` class and the `Unit` class are embedded from their sources as
found in the repository (the scope/unit sources are bundled with the test
utilities).  The `Quantity` value class, the `Tokenizer` and the unit
registry (`Units`) are not part of the available sources; the definitions
that depend on them are modelled from the specification and say so in
their doc comments.
-/

namespace CachePicker

/-- Measurement categories, from the `TypeOfMeasurement` enum of the unit
source file. -/
inductive TypeOfMeasurement where
  | TIME
  | LENGTH
  | AREA
  | VOLUME
  | MASS
  | TEMPERATURE
  | ANGLE
  deriving DecidableEq

/-- A unit of measurement, from the `Unit` class of the unit source file:
symbol, display name, type of measurement, multiplier (ratio to the finer
sub-unit) and dimension.  The optional `subUnit` reference of the source is
modelled by the two constructors: `base` has no sub-unit, `derived` carries
one.  The redundant `baseUnit` back-reference of the source is not stored;
it is recoverable as the end of the sub-unit chain. -/
inductive SUnit where
  | base (symbol name : String) (typeOfMeasurement : TypeOfMeasurement)
      (multiplier : ℚ) (dimension : Nat)
  | derived (symbol name : String) (typeOfMeasurement : TypeOfMeasurement)
      (multiplier : ℚ) (subUnit : SUnit) (dimension : Nat)
  deriving DecidableEq

/-- The `symbol` accessor of the `Unit` class. -/
def SUnit.symbol : SUnit → String
  | .base s _ _ _ _ => s
  | .derived s _ _ _ _ _ => s

/-- The `typeOfMeasurement` accessor of the `Unit` class. -/
def SUnit.typeOfMeasurement : SUnit → TypeOfMeasurement
  | .base _ _ t _ _ => t
  | .derived _ _ t _ _ _ => t

/-- The `multiplier` accessor of the `Unit` class. -/
def SUnit.multiplier : SUnit → ℚ
  | .base _ _ _ m _ => m
  | .derived _ _ _ m _ _ => m

/-- The `subUnit` accessor of the `Unit` class (`undefined` for a base
unit). -/
def SUnit.subUnit : SUnit → Option SUnit
  | .base _ _ _ _ _ => none
  | .derived _ _ _ _ su _ => su

/-- Modelled from the spec: the resolved multiplier of a unit, the product
of the multipliers along its sub-unit chain down to the chain's base
(spec 3: conversion factor between same-category units is the product of
multipliers along the chain connecting them; the common ancestor used here
is the end of the chain). -/
def factorToBase : SUnit → ℚ
  | .base _ _ _ m _ => m
  | .derived _ _ _ m su _ => m * factorToBase su

/-- Modelled from the spec: `v` is strictly finer than `u` when `v` occurs
in the proper sub-unit chain of `u` (spec 4.3, the strictly-finer test of
composite literal folding).  Units are compared by symbol, as the registry
indexes them. -/
def strictlyFiner (v : SUnit) : SUnit → Bool
  | .base _ _ _ _ _ => false
  | .derived _ _ _ _ su _ => su.symbol == v.symbol || strictlyFiner v su

/-- A quantity value: immutable magnitude plus optional unit (spec 3).
The `Quantity` class itself is not among the available sources; this
structure carries exactly the data the spec assigns to it.  Magnitudes are
modelled as rationals (the source uses binary floating point; every input
in the claims is exact in either representation). -/
structure Quantity where
  magnitude : ℚ
  unit : Option SUnit
  deriving DecidableEq

/-- Runtime values flowing through scopes and evaluation (spec 4.5 and 9),
together with the JavaScript-level `undefined` and `null` that the `Scope`
source distinguishes. -/
inductive RVal where
  | undefined
  | nul
  | q (quantity : Quantity)
  | str (s : String)
  | ident (name : String)
  deriving DecidableEq

/-- The concrete length chain used by the quantity-parser tests:
millimeter is the base of the chain. -/
def mmUnit : SUnit := .base "mm" "Millimeter" .LENGTH 1 1

/-- Centimeter: 10 millimeters. -/
def cmUnit : SUnit := .derived "cm" "Centimeter" .LENGTH 10 mmUnit 1

/-- Meter: 100 centimeters. -/
def mUnit : SUnit := .derived "m" "Meter" .LENGTH 100 cmUnit 1

/-- A unit registry maps symbols to units (`Units.get`); `Units.exists`
is `Option.isSome` of it.  The `Units` module is not among the available
sources, so the registry is kept abstract as a lookup function. -/
def Registry : Type := String → Option SUnit

/-- The registry holding the metric length chain of the tests. -/
def lengthReg : Registry := fun s =>
  if s = "m" then some mUnit
  else if s = "cm" then some cmUnit
  else if s = "mm" then some mmUnit
  else none

/-- The empty registry. -/
def emptyReg : Registry := fun _ => none

/-- Token types produced by the tokenizer (spec 3); `eos` is the terminal
`end` token and `str` the string-text token. -/
inductive TokenType where
  | number
  | word
  | delimiter
  | separator
  | operator
  | brackets
  | reference
  | str
  | eos
  deriving DecidableEq

/-- A positioned token: type, text `s`, numeric value `n` (meaningful for
number tokens only), line and column. -/
structure Token where
  type : TokenType
  s : String
  n : ℚ
  line : Nat
  column : Nat
  deriving DecidableEq

/-- The terminal token returned once the input is exhausted. -/
def endToken : Token := ⟨.eos, "", 0, 0, 0⟩

/-- `tokenizer.get()`: the current token; the token stream is modelled as
the list of remaining tokens, the current one first. -/
def cur : List Token → Token
  | [] => endToken
  | t :: _ => t

/-- `tokenizer.nextExpressionToken()` advancing the stream. -/
def advance : List Token → List Token
  | [] => []
  | _ :: ts => ts

/-- `tokenizer.lookAheadExpressionToken()`: peek one token beyond the
current one without consuming (spec 4.1). -/
def lookAhead : List Token → Token
  | [] => endToken
  | [_] => endToken
  | _ :: t :: _ => t

/-- Parse-time context: the environment consulted while parsing
(`Context.isProcedure` / `Context.isVariable`).  The `Context` class is not
among the available sources; per spec 4.4 it answers whether a procedure
or a variable of a given name is currently registered. -/
structure Context where
  isProcedure : String → Bool
  isVariable : String → Bool

/-- A context with no procedures and no variables. -/
def emptyCtx : Context := ⟨fun _ => false, fun _ => false⟩

/-- The distinguishable parse-error messages thrown by `Parser.ts`
(each `throw new Error(Utils.formatError(...))` site gets one
constructor), plus `fuelExhausted` standing for stack exhaustion of the
unbounded recursion. -/
inductive ErrMsg where
  | expectedStatement (s : String)
  | expectedExpressionChain (s : String)
  | expectedExpression (s : String)
  | implementationMissing (s : String)
  | expectedTuple (s : String)
  | expectedEndOfTuple (s : String)
  | expectedList (s : String)
  | expectedEndOfList (s : String)
  | expectedMap (s : String)
  | expectedColon (s : String)
  | expectedEndOfMap (s : String)
  | expectedKey (s : String)
  | expectedConstant (s : String)
  | expectedNumber (s : String)
  | expectedDelimiter (s : String)
  | unclosedString
  | unclosedBlock
  | expectedClosingPlaceholder (s : String)
  | expectedStringContent (s : String)
  | expectedCall (s : String)
  | expectedAccess (s : String)
  | expectedUnit (s : String)
  | unitNotDefined (s : String)
  | unsupportedUnary (s : String)
  | unsupportedOperation (s : String)
  | fuelExhausted
  deriving DecidableEq

/-- A positioned parse error (`Utils.formatError(line, column, message)`). -/
structure Err where
  line : Nat
  column : Nat
  msg : ErrMsg
  deriving DecidableEq

/-- The error used when the fuel of the embedded recursion runs out. -/
def fuelErr : Err := ⟨0, 0, .fuelExhausted⟩

/-- `Parser.isOperator(context, token, operator?)`: the token is an
operator token, optionally of a specific spelling.  The context argument
of the source is unused there and omitted here. -/
def isOperatorTok (token : Token) (operator : Option String) : Bool :=
  match token.type with
  | .operator =>
    match operator with
    | none => true
    | some op => op == token.s
  | _ => false

/-- `Parser.isUnaryOperator`: an operator token spelt `+` or `-`. -/
def isUnaryOperatorTok (token : Token) : Bool :=
  isOperatorTok token none && (token.s == "+" || token.s == "-")

/-- `Parser.isBrackets`: a brackets token, optionally of a specific
spelling. -/
def isBracketsTok (token : Token) (brackets : Option String) : Bool :=
  match token.type with
  | .brackets =>
    match brackets with
    | none => true
    | some b => b == token.s
  | _ => false

/-- `Parser.isSeparator`. -/
def isSeparatorTok (token : Token) (separator : Option String) : Bool :=
  match token.type with
  | .separator =>
    match separator with
    | none => true
    | some sep => sep == token.s
  | _ => false

/-- `Parser.isOpeningParentheses`. -/
def isOpeningParenthesesTok (token : Token) : Bool := isBracketsTok token (some "(")

/-- `Parser.isClosingParentheses`. -/
def isClosingParenthesesTok (token : Token) : Bool := isBracketsTok token (some ")")

/-- `Parser.isOpeningList`. -/
def isOpeningListTok (token : Token) : Bool := isBracketsTok token (some "[")

/-- `Parser.isClosingList`. -/
def isClosingListTok (token : Token) : Bool := isBracketsTok token (some "]")

/-- `Parser.isOpeningMap`. -/
def isOpeningMapTok (token : Token) : Bool := isBracketsTok token (some "\x7b")

/-- `Parser.isClosingMap`. -/
def isClosingMapTok (token : Token) : Bool := isBracketsTok token (some "\x7d")

/-- `Parser.isOpeningPlaceholder`. -/
def isOpeningPlaceholderTok (token : Token) : Bool := isBracketsTok token (some "$\x7b")

/-- `Parser.isClosingPlaceholder`. -/
def isClosingPlaceholderTok (token : Token) : Bool := isBracketsTok token (some "\x7d")

/-- `Utils.isIdentifier` (the `Utils` module is not among the available
sources): modelled from the spec as an identifier-like word — a letter
followed by letters or digits. -/
def isIdentifierStr (s : String) : Bool :=
  match s.toList with
  | [] => false
  | c :: rest => c.isAlpha && rest.all (fun d => d.isAlpha || d.isDigit)

/-- `Parser.isIdentifier`: a word token whose text is identifier-like. -/
def isIdentifierTok (token : Token) : Bool :=
  match token.type with
  | .word => isIdentifierStr token.s
  | _ => false

/-- `Parser.isTuple`. -/
def isTupleTok (token : Token) : Bool := isOpeningParenthesesTok token

/-- `Parser.isList`. -/
def isListTok (token : Token) : Bool := isOpeningListTok token

/-- `Parser.isMap`. -/
def isMapTok (token : Token) : Bool := isOpeningMapTok token

/-- `Parser.isNumber`. -/
def isNumberTok (token : Token) : Bool :=
  match token.type with
  | .number => true
  | _ => false

/-- `Parser.isString`: a string starts at its delimiter token. -/
def isStringTok (token : Token) : Bool :=
  match token.type with
  | .delimiter => true
  | _ => false

/-- `Parser.isKey`. -/
def isKeyTok (token : Token) : Bool := isIdentifierTok token || isStringTok token

/-- `Parser.isConstant`. -/
def isConstantTok (token : Token) : Bool := isNumberTok token || isStringTok token

/-- `Parser.isCall`: a word naming a registered procedure of the current
context. -/
def isCallTok (ctx : Context) (token : Token) : Bool :=
  match token.type with
  | .word => ctx.isProcedure token.s
  | _ => false

/-- `Parser.isAccess`: a word naming a bound variable of the current
context. -/
def isAccessTok (ctx : Context) (token : Token) : Bool :=
  match token.type with
  | .word => ctx.isVariable token.s
  | _ => false

/-- `Parser.isUnit`: a word, delimiter, separator or operator token whose
text the unit registry recognizes (`Units.exists`). -/
def isUnitTok (reg : Registry) (token : Token) : Bool :=
  match token.type with
  | .word => (reg token.s).isSome
  | .delimiter => (reg token.s).isSome
  | .separator => (reg token.s).isSome
  | .operator => (reg token.s).isSome
  | _ => false

/-- `Parser.isEnd`. -/
def isEndTok (token : Token) : Bool :=
  match token.type with
  | .eos => true
  | _ => false

/-- `Parser.isExpression`. -/
def isExpressionTok (ctx : Context) (reg : Registry) (token : Token) : Bool :=
  isTupleTok token || isListTok token || isMapTok token || isConstantTok token ||
    isCallTok ctx token || isAccessTok ctx token || isUnitTok reg token

/-- `Parser.isStatement` (via `isExpressionChain`, which equals
`isExpression`). -/
def isStatementTok (ctx : Context) (reg : Registry) (token : Token) : Bool :=
  isUnaryOperatorTok token || isExpressionTok ctx reg token

/-- Ordinal of `Precedence.Undefined` in the parser's precedence enum. -/
def precUndefined : Nat := 0

/-- Ordinal of `Precedence.Addition`. -/
def precAddition : Nat := 11

/-- Ordinal of `Precedence.Multiplication`. -/
def precMultiplication : Nat := 12

/-- Ordinal of `Precedence.Power`. -/
def precPower : Nat := 13

/-- The operator switch inside `parseStatement`: for each surface binary
operator, the evaluation-routine name, the precedence ordinal, and whether
it is left-associative (every operator except power). -/
def opInfo (s : String) : Option (String × Nat × Bool) :=
  if s = "+" then some ("add", precAddition, true)
  else if s = "-" then some ("subtract", precAddition, true)
  else if s = "*" then some ("multiply", precMultiplication, true)
  else if s = "/" then some ("divide", precMultiplication, true)
  else if s = "^" then some ("power", precPower, false)
  else if s = "mod" then some ("modulo", precMultiplication, true)
  else none

/-- The command tree built by the parser: one constructor per node class of
`Commands` used in `Parser.ts` (`AValue` carries either a quantity or an
identifier, both runtime values here). -/
inductive Command where
  | value (line column : Nat) (v : RVal)
  | unaryOperation (line column : Nat) (name symbol : String) (arg : Command)
  | binaryOperation (line column : Nat) (name symbol : String) (left right : Command)
  | chain (line column : Nat) (expressions : List Command)
  | tuple (line column : Nat) (commands : List Command)
  | list (line column : Nat) (commands : List Command)
  | map (line column : Nat) (entries : List (Command × Command))
  | call (line column : Nat) (procedure : String) (args : Command)
  | access (line column : Nat) (varName : String)
  | unit (line column : Nat) (u : SUnit)
  | stringChain (line column : Nat) (expressions : List Command)
  | stringStringSegment (line column : Nat) (text : String)
  | stringReferenceSegment (line column : Nat) (name : String)
  | stringPlaceholderSegment (line column : Nat) (arg : Command)

/-- The loop of `Parser.parseUnit`: as long as the current token is a `/`
operator whose one-token lookahead is a registered unit, consume both and
extend the compound symbol with `/`; otherwise, as long as the current
token is itself a registered unit, consume it and extend the compound
symbol with a blank. -/
def parseUnitLoop (reg : Registry) (unitString : String) :
    List Token → String × List Token
  | [] => (unitString, [])
  | [t] =>
    if isUnitTok reg t then (unitString ++ " " ++ t.s, [])
    else (unitString, [t])
  | t :: t2 :: rest =>
    if isOperatorTok t (some "/") && isUnitTok reg t2 then
      parseUnitLoop reg (unitString ++ "/" ++ t2.s) rest
    else if isUnitTok reg t then
      parseUnitLoop reg (unitString ++ " " ++ t.s) (t2 :: rest)
    else (unitString, t :: t2 :: rest)

/-- `Parser.parseUnit`: assemble the compound unit symbol, then resolve it
through the registry; an unresolved symbol is the positioned
`Unit not defined` error at the start token. -/
def parseUnit (reg : Registry) (ts : List Token) :
    Except Err (Command × List Token) :=
  let startToken := cur ts
  if ¬ isUnitTok reg startToken then
    .error ⟨startToken.line, startToken.column, .expectedUnit startToken.s⟩
  else
    match parseUnitLoop reg startToken.s (advance ts) with
    | (unitString, ts2) =>
      match reg unitString with
      | some u => .ok (.unit startToken.line startToken.column u, ts2)
      | none => .error ⟨startToken.line, startToken.column, .unitNotDefined unitString⟩

/-- `Parser.parseNumber`: a number token becomes an `AValue` holding a
unit-less quantity of the token's numeric value. -/
def parseNumber (ts : List Token) : Except Err (Command × List Token) :=
  let token := cur ts
  if ¬ isNumberTok token then
    .error ⟨token.line, token.column, .expectedNumber token.s⟩
  else .ok (.value token.line token.column (.q ⟨token.n, none⟩), advance ts)

/-- `Parser.parseAccess`: a variable word becomes an `Access` command for
that name (the source reads the name back from the context binding). -/
def parseAccess (ctx : Context) (ts : List Token) :
    Except Err (Command × List Token) :=
  let startToken := cur ts
  if ¬ isAccessTok ctx startToken then
    .error ⟨startToken.line, startToken.column, .expectedAccess startToken.s⟩
  else .ok (.access startToken.line startToken.column startToken.s, advance ts)

/-- `Parser.parseIdentifier`: an identifier word becomes an `AValue`
holding the identifier; the source does not advance the token stream
here. -/
def parseIdentifier (ts : List Token) : Except Err (Command × List Token) :=
  let token := cur ts
  if ¬ isIdentifierTok token then
    .error ⟨token.line, token.column, .expectedKey token.s⟩
  else .ok (.value token.line token.column (.ident token.s), ts)

mutual

/-- `Parser.parseStatement`: optional unary operator, an expression chain,
then the precedence-climbing operator loop (`statementLoop`).  Results are
pairs of the parsed command and the remaining token stream; `fuel` bounds
the recursion depth the source leaves unbounded (the unused `leadingUnit`
parameter of the source is omitted). -/
def parseStatement (fuel : Nat) (ctx : Context) (reg : Registry)
    (minimumPrecedence : Nat) (ts : List Token) :
    Except Err (Command × List Token) :=
  match fuel with
  | 0 => .error fuelErr
  | fuel + 1 =>
    let token := cur ts
    if ¬ isStatementTok ctx reg token then
      .error ⟨token.line, token.column, .expectedStatement token.s⟩
    else if isUnaryOperatorTok token then
      match parseExpressionChain fuel ctx reg (advance ts) with
      | .error e => .error e
      | .ok (arg, ts2) =>
        if token.s = "+" then
          statementLoop fuel ctx reg minimumPrecedence
            (.unaryOperation token.line token.column "positiveOf" token.s arg) ts2
        else if token.s = "-" then
          statementLoop fuel ctx reg minimumPrecedence
            (.unaryOperation token.line token.column "negativeOf" token.s arg) ts2
        else .error ⟨token.line, token.column, .unsupportedUnary token.s⟩
    else
      match parseExpressionChain fuel ctx reg ts with
      | .error e => .error e
      | .ok (expression, ts2) =>
        statementLoop fuel ctx reg minimumPrecedence expression ts2

/-- The `while (this.isOperator(...))` loop of `parseStatement`: consult
the operator switch, stop when the precedence falls below the caller's
minimum or equals it for a left-associative operator, otherwise consume
the operator, parse the right side at the operator's precedence and fold
it into a `BinaryOperation`. -/
def statementLoop (fuel : Nat) (ctx : Context) (reg : Registry)
    (minimumPrecedence : Nat) (expression : Command) (ts : List Token) :
    Except Err (Command × List Token) :=
  match fuel with
  | 0 => .error fuelErr
  | fuel + 1 =>
    let token := cur ts
    if isOperatorTok token none then
      match opInfo token.s with
      | none => .error ⟨token.line, token.column, .unsupportedOperation token.s⟩
      | some (name, precedence, leftAssociative) =>
        if precedence < minimumPrecedence then .ok (expression, ts)
        else if precedence = minimumPrecedence ∧ leftAssociative = true then
          .ok (expression, ts)
        else
          match parseStatement fuel ctx reg precedence (advance ts) with
          | .error e => .error e
          | .ok (rhs, ts2) =>
            statementLoop fuel ctx reg minimumPrecedence
              (.binaryOperation token.line token.column name token.s expression rhs)
              ts2
    else .ok (expression, ts)

/-- `Parser.parseExpressionChain`: one expression, then as long as another
expression follows, collect the juxtaposed expressions into a `Chain`
positioned at the start token. -/
def parseExpressionChain (fuel : Nat) (ctx : Context) (reg : Registry)
    (ts : List Token) : Except Err (Command × List Token) :=
  match fuel with
  | 0 => .error fuelErr
  | fuel + 1 =>
    let startToken := cur ts
    if ¬ isExpressionTok ctx reg startToken then
      .error ⟨startToken.line, startToken.column, .expectedExpressionChain startToken.s⟩
    else
      match parseExpression fuel ctx reg ts with
      | .error e => .error e
      | .ok (expression, ts2) =>
        if isExpressionTok ctx reg (cur ts2) then
          match chainLoop fuel ctx reg [expression] ts2 with
          | .error e => .error e
          | .ok (expressions, ts3) =>
            .ok (.chain startToken.line startToken.column expressions, ts3)
        else .ok (expression, ts2)

/-- The collection loop of `parseExpressionChain`. -/
def chainLoop (fuel : Nat) (ctx : Context) (reg : Registry)
    (acc : List Command) (ts : List Token) :
    Except Err (List Command × List Token) :=
  match fuel with
  | 0 => .error fuelErr
  | fuel + 1 =>
    if isExpressionTok ctx reg (cur ts) then
      match parseExpression fuel ctx reg ts with
      | .error e => .error e
      | .ok (expression, ts2) => chainLoop fuel ctx reg (acc ++ [expression]) ts2
    else .ok (acc, ts)

/-- `Parser.parseExpression`: dispatch on the current token, in the fixed
order of the source — tuple, list, map, constant, call, access, unit,
otherwise an error. -/
def parseExpression (fuel : Nat) (ctx : Context) (reg : Registry)
    (ts : List Token) : Except Err (Command × List Token) :=
  match fuel with
  | 0 => .error fuelErr
  | fuel + 1 =>
    let token := cur ts
    if ¬ isExpressionTok ctx reg token then
      .error ⟨token.line, token.column, .expectedExpression token.s⟩
    else if isTupleTok token then parseTuple fuel ctx reg ts
    else if isListTok token then parseList fuel ctx reg ts
    else if isMapTok token then parseMap fuel ctx reg ts
    else if isConstantTok token then parseConstant fuel ctx reg ts
    else if isCallTok ctx token then parseCall fuel ctx reg ts
    else if isAccessTok ctx token then parseAccess ctx ts
    else if isUnitTok reg token then parseUnit reg ts
    else .error ⟨token.line, token.column, .implementationMissing token.s⟩

/-- `Parser.parseTuple`: an opening parenthesis, the element loop, then
the expected closing parenthesis. -/
def parseTuple (fuel : Nat) (ctx : Context) (reg : Registry)
    (ts : List Token) : Except Err (Command × List Token) :=
  match fuel with
  | 0 => .error fuelErr
  | fuel + 1 =>
    let startToken := cur ts
    if ¬ isTupleTok startToken then
      .error ⟨startToken.line, startToken.column, .expectedTuple startToken.s⟩
    else
      match tupleLoop fuel ctx reg [] (advance ts) with
      | .error e => .error e
      | .ok (commands, ts2) =>
        let token := cur ts2
        if isClosingParenthesesTok token then
          .ok (.tuple startToken.line startToken.column commands, advance ts2)
        else .error ⟨token.line, token.column, .expectedEndOfTuple token.s⟩

/-- The `while (true)` element loop of `parseTuple`: stop before a token
that cannot start a statement; after each statement, stop unless a comma
separator follows. -/
def tupleLoop (fuel : Nat) (ctx : Context) (reg : Registry)
    (acc : List Command) (ts : List Token) :
    Except Err (List Command × List Token) :=
  match fuel with
  | 0 => .error fuelErr
  | fuel + 1 =>
    if ¬ isStatementTok ctx reg (cur ts) then .ok (acc, ts)
    else
      match parseStatement fuel ctx reg precUndefined ts with
      | .error e => .error e
      | .ok (command, ts2) =>
        if isSeparatorTok (cur ts2) (some ",") then
          tupleLoop fuel ctx reg (acc ++ [command]) (advance ts2)
        else .ok (acc ++ [command], ts2)

/-- `Parser.parseList`: like `parseTuple` with square brackets. -/
def parseList (fuel : Nat) (ctx : Context) (reg : Registry)
    (ts : List Token) : Except Err (Command × List Token) :=
  match fuel with
  | 0 => .error fuelErr
  | fuel + 1 =>
    let startToken := cur ts
    if ¬ isListTok startToken then
      .error ⟨startToken.line, startToken.column, .expectedList startToken.s⟩
    else
      match listLoop fuel ctx reg [] (advance ts) with
      | .error e => .error e
      | .ok (commands, ts2) =>
        let token := cur ts2
        if isClosingListTok token then
          .ok (.list startToken.line startToken.column commands, advance ts2)
        else .error ⟨token.line, token.column, .expectedEndOfList token.s⟩

/-- The element loop of `parseList`. -/
def listLoop (fuel : Nat) (ctx : Context) (reg : Registry)
    (acc : List Command) (ts : List Token) :
    Except Err (List Command × List Token) :=
  match fuel with
  | 0 => .error fuelErr
  | fuel + 1 =>
    if ¬ isStatementTok ctx reg (cur ts) then .ok (acc, ts)
    else
      match parseStatement fuel ctx reg precUndefined ts with
      | .error e => .error e
      | .ok (command, ts2) =>
        if isSeparatorTok (cur ts2) (some ",") then
          listLoop fuel ctx reg (acc ++ [command]) (advance ts2)
        else .ok (acc ++ [command], ts2)

/-- `Parser.parseMap`: an opening brace, the entry loop, then the expected
closing brace. -/
def parseMap (fuel : Nat) (ctx : Context) (reg : Registry)
    (ts : List Token) : Except Err (Command × List Token) :=
  match fuel with
  | 0 => .error fuelErr
  | fuel + 1 =>
    let startToken := cur ts
    if ¬ isMapTok startToken then
      .error ⟨startToken.line, startToken.column, .expectedMap startToken.s⟩
    else
      match mapLoop fuel ctx reg [] (advance ts) with
      | .error e => .error e
      | .ok (entries, ts2) =>
        let token := cur ts2
        if isClosingMapTok token then
          .ok (.map startToken.line startToken.column entries, advance ts2)
        else .error ⟨token.line, token.column, .expectedEndOfMap token.s⟩

/-- The entry loop of `parseMap`: key, expected colon, statement; stop
unless a comma separator follows. -/
def mapLoop (fuel : Nat) (ctx : Context) (reg : Registry)
    (acc : List (Command × Command)) (ts : List Token) :
    Except Err (List (Command × Command) × List Token) :=
  match fuel with
  | 0 => .error fuelErr
  | fuel + 1 =>
    if ¬ isKeyTok (cur ts) then .ok (acc, ts)
    else
      match parseKey fuel ctx reg ts with
      | .error e => .error e
      | .ok (key, ts2) =>
        let token := cur ts2
        if ¬ isSeparatorTok token (some ":") then
          .error ⟨token.line, token.column, .expectedColon token.s⟩
        else
          match parseStatement fuel ctx reg precUndefined (advance ts2) with
          | .error e => .error e
          | .ok (value, ts3) =>
            if isSeparatorTok (cur ts3) (some ",") then
              mapLoop fuel ctx reg (acc ++ [(key, value)]) (advance ts3)
            else .ok (acc ++ [(key, value)], ts3)

/-- `Parser.parseKey`: a string or an identifier. -/
def parseKey (fuel : Nat) (ctx : Context) (reg : Registry)
    (ts : List Token) : Except Err (Command × List Token) :=
  match fuel with
  | 0 => .error fuelErr
  | fuel + 1 =>
    let token := cur ts
    if ¬ isKeyTok token then
      .error ⟨token.line, token.column, .expectedKey token.s⟩
    else if isStringTok token then parseString fuel ctx reg ts
    else if isIdentifierTok token then parseIdentifier ts
    else .error ⟨token.line, token.column, .implementationMissing token.s⟩

/-- `Parser.parseConstant`: a number or a string. -/
def parseConstant (fuel : Nat) (ctx : Context) (reg : Registry)
    (ts : List Token) : Except Err (Command × List Token) :=
  match fuel with
  | 0 => .error fuelErr
  | fuel + 1 =>
    let token := cur ts
    if ¬ isConstantTok token then
      .error ⟨token.line, token.column, .expectedConstant token.s⟩
    else if isNumberTok token then parseNumber ts
    else if isStringTok token then parseString fuel ctx reg ts
    else .error ⟨token.line, token.column, .implementationMissing token.s⟩

/-- `Parser.parseString`: the opening delimiter, then the segment loop. -/
def parseString (fuel : Nat) (ctx : Context) (reg : Registry)
    (ts : List Token) : Except Err (Command × List Token) :=
  match fuel with
  | 0 => .error fuelErr
  | fuel + 1 =>
    let startToken := cur ts
    if ¬ isStringTok startToken then
      .error ⟨startToken.line, startToken.column, .expectedDelimiter startToken.s⟩
    else
      match stringLoop fuel ctx reg startToken [] (advance ts) with
      | .error e => .error e
      | .ok (expressions, ts2) =>
        .ok (.stringChain startToken.line startToken.column expressions, ts2)

/-- The segment loop of `parseString`: literal text and reference segments
accumulate; a `$` + brace placeholder parses one nested statement up to
the matching closing brace; the closing delimiter ends the string; end of
input is the unclosed-string error at the start token. -/
def stringLoop (fuel : Nat) (ctx : Context) (reg : Registry)
    (startToken : Token) (acc : List Command) (ts : List Token) :
    Except Err (List Command × List Token) :=
  match fuel with
  | 0 => .error fuelErr
  | fuel + 1 =>
    let token := cur ts
    if isEndTok token then
      .error ⟨startToken.line, startToken.column, .unclosedString⟩
    else
      match token.type with
      | .delimiter => .ok (acc, advance ts)
      | .str =>
        stringLoop fuel ctx reg startToken
          (acc ++ [.stringStringSegment token.line token.column token.s]) (advance ts)
      | .reference =>
        stringLoop fuel ctx reg startToken
          (acc ++ [.stringReferenceSegment token.line token.column token.s]) (advance ts)
      | _ =>
        if isOpeningPlaceholderTok token then
          if isEndTok (cur (advance ts)) then
            .error ⟨token.line, token.column, .unclosedBlock⟩
          else
            match parseStatement fuel ctx reg precUndefined (advance ts) with
            | .error e => .error e
            | .ok (st, ts2) =>
              let closing := cur ts2
              if ¬ isClosingPlaceholderTok closing then
                .error ⟨closing.line, closing.column, .expectedClosingPlaceholder closing.s⟩
              else
                stringLoop fuel ctx reg startToken
                  (acc ++ [.stringPlaceholderSegment token.line token.column st])
                  (advance ts2)
        else .error ⟨token.line, token.column, .expectedStringContent token.s⟩

/-- `Parser.parseCall`: a procedure word followed by its single argument
statement. -/
def parseCall (fuel : Nat) (ctx : Context) (reg : Registry)
    (ts : List Token) : Except Err (Command × List Token) :=
  match fuel with
  | 0 => .error fuelErr
  | fuel + 1 =>
    let startToken := cur ts
    if ¬ isCallTok ctx startToken then
      .error ⟨startToken.line, startToken.column, .expectedCall startToken.s⟩
    else
      match parseStatement fuel ctx reg precUndefined (advance ts) with
      | .error e => .error e
      | .ok (args, ts2) =>
        .ok (.call startToken.line startToken.column startToken.s args, ts2)

end

/-- Modelled from the spec (the `Quantity` class is not among the
available sources): conversion re-expresses the magnitude by the ratio of
the resolved multipliers, walking each sub-unit chain to its base as the
common ancestor, and fails across categories (spec 4.3). -/
def Quantity.convert (q : Quantity) (target : SUnit) : Except String Quantity :=
  match q.unit with
  | none => .error "Conversion of a unit-less quantity is not defined"
  | some u =>
    if u.typeOfMeasurement = target.typeOfMeasurement then
      .ok ⟨q.magnitude * (factorToBase u / factorToBase target), some target⟩
    else .error "Conversion between categories fails"

/-- Modelled from the spec: addition of quantities requires an identical
category; the result takes the coarser of the two units (larger resolved
multiplier), the other operand converted into it first (spec 3). -/
def Quantity.add (a b : Quantity) : Except String Quantity :=
  match a.unit, b.unit with
  | none, none => .ok ⟨a.magnitude + b.magnitude, none⟩
  | some u, some v =>
    if u.typeOfMeasurement = v.typeOfMeasurement then
      if factorToBase v ≤ factorToBase u then
        .ok ⟨a.magnitude + b.magnitude * (factorToBase v / factorToBase u), some u⟩
      else
        .ok ⟨a.magnitude * (factorToBase u / factorToBase v) + b.magnitude, some v⟩
    else .error "Addition across categories fails"
  | _, _ => .error "Addition of mixed unit-less and united quantities is not modelled"

/-- Modelled from the spec: subtraction, with the same unit rules as
addition. -/
def Quantity.subtract (a b : Quantity) : Except String Quantity :=
  match a.unit, b.unit with
  | none, none => .ok ⟨a.magnitude - b.magnitude, none⟩
  | some u, some v =>
    if u.typeOfMeasurement = v.typeOfMeasurement then
      if factorToBase v ≤ factorToBase u then
        .ok ⟨a.magnitude - b.magnitude * (factorToBase v / factorToBase u), some u⟩
      else
        .ok ⟨a.magnitude * (factorToBase u / factorToBase v) - b.magnitude, some v⟩
    else .error "Subtraction across categories fails"
  | _, _ => .error "Subtraction of mixed unit-less and united quantities is not modelled"

/-- Modelled from the spec: multiplication; a unit-less factor scales the
other operand.  Combining two united operands (dimension adjustment) is
outside the modelled scope. -/
def Quantity.multiply (a b : Quantity) : Except String Quantity :=
  match a.unit, b.unit with
  | none, none => .ok ⟨a.magnitude * b.magnitude, none⟩
  | some u, none => .ok ⟨a.magnitude * b.magnitude, some u⟩
  | none, some v => .ok ⟨a.magnitude * b.magnitude, some v⟩
  | some _, some _ => .error "Combining units under multiplication is not modelled"

/-- Modelled from the spec: division; a unit-less divisor scales the
dividend.  Combining or cancelling units is outside the modelled scope. -/
def Quantity.divide (a b : Quantity) : Except String Quantity :=
  match a.unit, b.unit with
  | none, none => .ok ⟨a.magnitude / b.magnitude, none⟩
  | some u, none => .ok ⟨a.magnitude / b.magnitude, some u⟩
  | _, _ => .error "Combining units under division is not modelled"

/-- Modelled from the spec: power of unit-less quantities with a
non-negative integral exponent (no power routine appears among the
available sources). -/
def Quantity.power (a b : Quantity) : Except String Quantity :=
  match a.unit, b.unit with
  | none, none =>
    if b.magnitude.den = 1 ∧ 0 ≤ b.magnitude.num then
      .ok ⟨a.magnitude ^ b.magnitude.num.toNat, none⟩
    else .error "Power with a non-integral exponent is not modelled"
  | _, _ => .error "Power of united quantities is not modelled"

/-- `Operations.positive`: the source function body is empty, so every
call returns `undefined`. -/
def Operations.positive (_value : RVal) : Except String RVal := .ok .undefined

/-- `Operations.negative`: the source function body is empty, so every
call returns `undefined`. -/
def Operations.negative (_value : RVal) : Except String RVal := .ok .undefined

/-- `Operations.modulo`: the source function body is empty, so every call
returns `undefined` — it neither computes a result nor throws. -/
def Operations.modulo (_left _right : RVal) : Except String RVal := .ok .undefined

/-- `Operations.convert`: delegates to `Quantity.convert` when the value
is a quantity, otherwise throws. -/
def Operations.convert (value : RVal) (unit : SUnit) : Except String RVal :=
  match value with
  | .q qty => (Quantity.convert qty unit).map RVal.q
  | _ => .error "Conversion not supported"

/-- `Operations.add`: delegates to `Quantity.add` when both operands are
quantities, otherwise throws. -/
def Operations.add (left right : RVal) : Except String RVal :=
  match left, right with
  | .q a, .q b => (Quantity.add a b).map RVal.q
  | _, _ => .error "Addition not supported"

/-- `Operations.subtract`. -/
def Operations.subtract (left right : RVal) : Except String RVal :=
  match left, right with
  | .q a, .q b => (Quantity.subtract a b).map RVal.q
  | _, _ => .error "Subtraction not supported"

/-- `Operations.multiply`. -/
def Operations.multiply (left right : RVal) : Except String RVal :=
  match left, right with
  | .q a, .q b => (Quantity.multiply a b).map RVal.q
  | _, _ => .error "Multiplication not supported"

/-- `Operations.divide`. -/
def Operations.divide (left right : RVal) : Except String RVal :=
  match left, right with
  | .q a, .q b => (Quantity.divide a b).map RVal.q
  | _, _ => .error "Division not supported"

/-- Modelled from the spec: the power operation the parser names
(`Operations.ts` has no power routine). -/
def powerOp (left right : RVal) : Except String RVal :=
  match left, right with
  | .q a, .q b => (Quantity.power a b).map RVal.q
  | _, _ => .error "Power not supported"

/-- Dispatch from a `BinaryOperation` name to the operation routine
(spec 4.5: binary operations dispatch to the named routine). -/
def binaryDispatch (name : String) (left right : RVal) : Except String RVal :=
  if name = "add" then Operations.add left right
  else if name = "subtract" then Operations.subtract left right
  else if name = "multiply" then Operations.multiply left right
  else if name = "divide" then Operations.divide left right
  else if name = "power" then powerOp left right
  else if name = "modulo" then Operations.modulo left right
  else .error "Unsupported operation"

/-- Dispatch from a `UnaryOperation` name to the operation routine. -/
def unaryDispatch (name : String) (arg : RVal) : Except String RVal :=
  if name = "positiveOf" then Operations.positive arg
  else if name = "negativeOf" then Operations.negative arg
  else .error "Unsupported unary operation"

/-- Modelled from the spec: evaluation of the command kinds the claims
exercise (spec 4.5) — constants return their embedded value, unary and
binary operations evaluate their operands and dispatch to the named
routine.  The remaining kinds need the `Commands` evaluation sources,
which are not among the available files. -/
def evalCommand : Command → Except String RVal
  | .value _ _ v => .ok v
  | .unaryOperation _ _ name _ arg =>
    match evalCommand arg with
    | .error e => .error e
    | .ok a => unaryDispatch name a
  | .binaryOperation _ _ name _ left right =>
    match evalCommand left with
    | .error e => .error e
    | .ok a =>
      match evalCommand right with
      | .error e => .error e
      | .ok b => binaryDispatch name a b
  | _ => .error "Evaluation of this command kind is not modelled"

/-- Parse a full statement with the empty environment and registry and
evaluate the resulting command. -/
def runScript (ts : List Token) : Except String RVal :=
  match parseStatement 32 emptyCtx emptyReg precUndefined ts with
  | .error _ => .error "Parse error"
  | .ok (command, _) => evalCommand command

/-- The `Scope` class: an own value table plus a parent link; `root`
mirrors `new Scope(null)`, `child` a scope constructed on a parent.
Values stored are JavaScript values, so the table holds `RVal`
(including `undefined` and `nul`). -/
inductive Scope where
  | root (values : List (String × RVal))
  | child (values : List (String × RVal)) (parent : Scope)

/-- The own value table of a scope. -/
def Scope.values : Scope → List (String × RVal)
  | .root vs => vs
  | .child vs _ => vs

/-- The `parent` accessor (`null` for a root scope). -/
def Scope.parent : Scope → Option Scope
  | .root _ => none
  | .child _ p => some p

/-- JavaScript property read `values[name]`: `undefined` when absent. -/
def propGet : List (String × RVal) → String → RVal
  | [], _ => .undefined
  | (k, v) :: rest, name => if k = name then v else propGet rest name

/-- JavaScript property write `values[name] = value`: overwrite the
existing property or add a new one. -/
def propSet : List (String × RVal) → String → RVal → List (String × RVal)
  | [], name, value => [(name, value)]
  | (k, v) :: rest, name, value =>
    if k = name then (k, value) :: rest else (k, v) :: propSet rest name value

/-- The lookup walk of `Scope.get`: read the own table; while the value is
`undefined` and a parent exists, step outward and read again. -/
def Scope.lookupChain : Scope → String → RVal
  | .root vs, name => propGet vs name
  | .child vs parent, name =>
    match propGet vs name with
    | .undefined => Scope.lookupChain parent name
    | v => v

/-- `Scope.get(name, defaultValue?)`: walk the chain; if the found value
is `undefined` or `null`, return the default when one was supplied,
otherwise return that value unchanged.  The optional parameter is modelled
explicitly: passing `undefined` is JavaScript's not-passing-it. -/
def Scope.get (s : Scope) (name : String) (defaultValue : RVal) : RVal :=
  let value := s.lookupChain name
  if value = .undefined ∨ value = .nul then
    if defaultValue ≠ .undefined then defaultValue else value
  else value

/-- `Scope.set(name, value)`: write into the own table. -/
def Scope.set : Scope → String → RVal → Scope
  | .root vs, name, value => .root (propSet vs name value)
  | .child vs p, name, value => .child (propSet vs name value) p

/-- `Scope.put(values)`: set every binding of the map, in iteration
order. -/
def Scope.put (s : Scope) (values : List (String × RVal)) : Scope :=
  values.foldl (fun sc p => sc.set p.1 p.2) s

/-- `Scope.derive(params)`: `new Scope(this).put(params)`. -/
def Scope.derive (s : Scope) (params : List (String × RVal)) : Scope :=
  (Scope.child [] s).put params

/-- Split a character list at every occurrence of the separator. -/
def splitChar (sep : Char) : List Char → List (List Char)
  | [] => [[]]
  | c :: rest =>
    let r := splitChar sep rest
    if c = sep then [] :: r
    else
      match r with
      | [] => [[c]]
      | h :: t => (c :: h) :: t

/-- The blank-separated pieces of a quantity literal. -/
def piecesOf (s : String) : List String :=
  ((splitChar ' ' s.toList).filter (fun l => l ≠ [])).map (fun l => String.mk l)

/-- The value of a non-empty all-digit character list. -/
def digitsVal (cs : List Char) : Option Nat :=
  if cs = [] then none
  else if cs.all Char.isDigit then
    some (cs.foldl (fun acc c => acc * 10 + (c.toNat - 48)) 0)
  else none

/-- Modelled from the spec: a decimal number literal — an integer or an
integer, a dot and a fraction part (spec 4.1 numeric literals). -/
def parseDecimal (s : String) : Option ℚ :=
  match splitChar '.' s.toList with
  | [a] => (digitsVal a).map (fun x => (x : ℚ))
  | [a, b] =>
    match digitsVal a, digitsVal b with
    | some x, some y => some ((x : ℚ) + (y : ℚ) / (10 : ℚ) ^ b.length)
    | _, _ => none
  | _ => none

/-- The number of integer digits a piece was written with (used when two
adjacent literals compose as a chain, which concatenates their renderings,
spec 4.5). -/
def intDigitsOf (s : String) : Nat := ((splitChar '.' s.toList).headD []).length

/-- One number of a composite quantity literal: its value, the number of
integer digits it was written with, and its unit when one follows it. -/
structure Seg where
  value : ℚ
  intDigits : Nat
  unit : Option SUnit

/-- Modelled from the spec: group the pieces of a composite quantity
literal into number/unit segments — every segment is a number optionally
followed by a unit symbol, which must be registered. -/
def toSegs (reg : Registry) : List String → Except String (List Seg)
  | [] => .ok []
  | [p] =>
    match parseDecimal p with
    | some q => .ok [⟨q, intDigitsOf p, none⟩]
    | none => .error "Expected a number"
  | p :: p2 :: rest =>
    match parseDecimal p with
    | none => .error "Expected a number"
    | some q =>
      match parseDecimal p2 with
      | some _ =>
        match toSegs reg (p2 :: rest) with
        | .error e => .error e
        | .ok segs => .ok (⟨q, intDigitsOf p, none⟩ :: segs)
      | none =>
        match reg p2 with
        | some u =>
          match toSegs reg rest with
          | .error e => .error e
          | .ok segs => .ok (⟨q, intDigitsOf p, some u⟩ :: segs)
        | none => .error "Unit not defined"

/-- Modelled from the spec: composite literal folding (spec 4.3).  A
following unit-qualified number folds into the accumulated quantity when
its unit is of the same category and strictly finer, converted into the
coarser unit first.  A bare number following a unit-qualified quantity is
read under the sub-unit of the previously named unit and fails when there
is none.  A unit-qualified number following a bare integral number is not
folded: the two compose as a chain, which concatenates their renderings
digit for digit (spec 4.5 adjacency). -/
def foldSegs : Quantity → List Seg → Except String Quantity
  | q, [] => .ok q
  | q, seg :: rest =>
    match seg.unit with
    | some v =>
      match q.unit with
      | some u =>
        if u.typeOfMeasurement = v.typeOfMeasurement ∧ strictlyFiner v u = true then
          foldSegs ⟨q.magnitude + seg.value * (factorToBase v / factorToBase u), some u⟩ rest
        else .error "The unit is not strictly finer: no folding"
      | none =>
        if q.magnitude.den = 1 ∧ 0 ≤ q.magnitude ∧ seg.value.den = 1 ∧ 0 ≤ seg.value then
          foldSegs ⟨q.magnitude * (10 : ℚ) ^ seg.intDigits + seg.value, some v⟩ rest
        else .error "Only integral quantities chain by adjacency"
    | none =>
      match q.unit with
      | some u =>
        match u.subUnit with
        | some su =>
          foldSegs ⟨q.magnitude + seg.value * (factorToBase su / factorToBase u), some u⟩ rest
        | none => .error "The unit has no sub-unit"
      | none => .error "Chaining two bare numbers is not modelled"

/-- Modelled from the spec: `Quantity.parse(language, text)` — locale-aware
parsing of a composite quantity literal (spec 4.3).  The language argument
selects locale display names only and does not affect the metric symbols
used here; the registry is the metric length chain of the tests. -/
def Quantity.parse (_language : String) (s : String) : Except String Quantity :=
  match toSegs lengthReg (piecesOf s) with
  | .error e => .error e
  | .ok [] => .error "Expected a quantity"
  | .ok (first :: rest) => foldSegs ⟨first.value, first.unit⟩ rest

/-- Left-pad a digit string with zeros to the given length. -/
def padZeros (s : String) (len : Nat) : String :=
  String.mk (List.replicate (len - s.length) '0') ++ s

/-- Modelled from the spec: canonical decimal rendering of a magnitude —
integral magnitudes render without a trailing fractional part (spec 6),
non-integral ones with the least number of decimal digits. -/
def decimalString (q : ℚ) : String :=
  let sign := if q < 0 then "-" else ""
  let a := |q|
  match (List.range 20).find? (fun k => (a * (10 : ℚ) ^ k).den == 1) with
  | some 0 => sign ++ toString a.num.natAbs
  | some k =>
    let n := (a * (10 : ℚ) ^ k).num.natAbs
    sign ++ toString (n / 10 ^ k) ++ "." ++ padZeros (toString (n % 10 ^ k)) k
  | none => sign ++ toString a.num.natAbs ++ "/" ++ toString a.den

/-- `Quantity.toString()`: the canonical `magnitude blank unit-symbol`
rendering (spec 6). -/
def Quantity.toString (q : Quantity) : String :=
  decimalString q.magnitude ++
    (match q.unit with
     | some u => " " ++ u.symbol
     | none => "")

/-- The binding a JavaScript object literal built from the association
list holds at a name: last write wins, absent names are `undefined`. -/
def lastBinding (b : List (String × RVal)) (name : String) : RVal :=
  b.foldl (fun acc p => if p.1 = name then p.2 else acc) .undefined

/-- `set` writes the own table and keeps the parent link. -/
theorem Scope.set_values (s : Scope) (n : String) (v : RVal) :
    (s.set n v).values = propSet s.values n v := by
  cases s <;> rfl

/-- `set` does not change the parent link. -/
theorem Scope.set_parent (s : Scope) (n : String) (v : RVal) :
    (s.set n v).parent = s.parent := by
  cases s <;> rfl

/-- `put` does not change the parent link. -/
theorem Scope.put_parent (b : List (String × RVal)) (s : Scope) :
    (s.put b).parent = s.parent := by
  induction b generalizing s with
  | nil => rfl
  | cons hd tl ih =>
    show (Scope.put (s.set hd.1 hd.2) tl).parent = s.parent
    rw [ih, Scope.set_parent]

/-- Reading after a property write: the written value at the written name,
the previous table elsewhere. -/
theorem propGet_propSet (vs : List (String × RVal)) (n : String) (v : RVal)
    (k : String) :
    propGet (propSet vs n v) k = if n = k then v else propGet vs k := by
  induction vs with
  | nil => rfl
  | cons hd tl ih =>
    rcases hd with ⟨a, w⟩
    by_cases han : a = n
    · subst han
      by_cases hak : a = k <;> simp [propSet, propGet, hak]
    · by_cases hak : a = k
      · subst hak
        have hnk : n ≠ a := fun h => han h.symm
        simp [propSet, propGet, han, hnk]
      · simp [propSet, propGet, han, hak, ih]

/-- Reading after `put`: fold the bindings over the previous reading. -/
theorem Scope.put_propGet (b : List (String × RVal)) (s : Scope) (k : String) :
    propGet (s.put b).values k =
      b.foldl (fun acc p => if p.1 = k then p.2 else acc) (propGet s.values k) := by
  induction b generalizing s with
  | nil => rfl
  | cons hd tl ih =>
    show propGet (Scope.put (s.set hd.1 hd.2) tl).values k = _
    rw [ih, Scope.set_values, propGet_propSet]
    rfl

/-- C10: for every scope and bindings map, `derive` returns a new child
scope whose parent is the receiver itself (the receiver is passed on
untouched — `set`/`put` are applied only to the newly created child) and
whose own table reads back exactly the bindings of the map, last write
winning as in a JavaScript object. -/
theorem scope_derive_bindings (s : Scope) (b : List (String × RVal)) :
    (Scope.derive s b).parent = some s
    ∧ ∀ k, propGet (Scope.derive s b).values k = lastBinding b k := by
  constructor
  · show (Scope.put (Scope.child [] s) b).parent = some s
    rw [Scope.put_parent]
    rfl
  · intro k
    show propGet (Scope.put (Scope.child [] s) b).values k = _
    rw [Scope.put_propGet]
    rfl

/-- A number token at line 1 and the given column. -/
def numTok (v : ℚ) (c : Nat) : Token := ⟨.number, "", v, 1, c⟩

/-- An operator token at line 1 and the given column. -/
def opTok (s : String) (c : Nat) : Token := ⟨.operator, s, 0, 1, c⟩

/-- The token stream of the script `1 + 2 * 3`. -/
def toksAdd : List Token :=
  [numTok 1 1, opTok "+" 3, numTok 2 5, opTok "*" 7, numTok 3 9]

/-- The token stream of the script `2 ^ 3 ^ 2`. -/
def toksPow : List Token :=
  [numTok 2 1, opTok "^" 3, numTok 3 5, opTok "^" 7, numTok 2 9]

/-- C2: composite literal folding of `Quantity.parse`: `1.5 m` renders to
itself; `1 m 50 cm` folds to `1.5 m`; the bare `50` of `1 m 50` is read
under the sub-unit of the meter and folds to `1.5 m`; `1 500 cm` is not
folded and renders as `1500 cm` because the trailing number's own unit is
not strictly finer than a unit already in force. -/
theorem quantityParse_compositeFolding :
    (Quantity.parse "en-US" "1.5 m").map Quantity.toString = .ok "1.5 m"
    ∧ (Quantity.parse "en-US" "1 m 50 cm").map Quantity.toString = .ok "1.5 m"
    ∧ (Quantity.parse "en-US" "1 m 50").map Quantity.toString = .ok "1.5 m"
    ∧ (Quantity.parse "en-US" "1 500 cm").map Quantity.toString = .ok "1500 cm" := by
  refine ⟨?_, ?_, ?_, ?_⟩ <;> with_unfolding_all rfl

/-- C1: in the operator loop of `parseStatement`, a binary operator is
consumed exactly when its precedence is at least the caller's minimum and,
at equal precedence, the operator is not left-associative — so at equal
precedence the left-associative operators stop the loop while the sole
right-associative power operator recurses, at its own (the same)
precedence, into the right side.  All of `add`, `subtract`, `multiply`,
`divide` and `modulo` are left-associative and only `power` is
right-associative; consequently `1 + 2 * 3` evaluates to 7 and
`2 ^ 3 ^ 2` evaluates to 512. -/
theorem parseStatement_precedence_climbing :
    (∀ fuel ctx reg minimumPrecedence expression (tok : Token) ts name precedence
        leftAssociative,
      tok.type = TokenType.operator →
      opInfo tok.s = some (name, precedence, leftAssociative) →
      statementLoop (fuel + 1) ctx reg minimumPrecedence expression (tok :: ts) =
        if minimumPrecedence ≤ precedence ∧
            (precedence = minimumPrecedence → leftAssociative = false) then
          match parseStatement fuel ctx reg precedence ts with
          | .error e => .error e
          | .ok (rhs, ts2) =>
            statementLoop fuel ctx reg minimumPrecedence
              (.binaryOperation tok.line tok.column name tok.s expression rhs) ts2
        else .ok (expression, tok :: ts))
    ∧ (opInfo "+" = some ("add", precAddition, true)
       ∧ opInfo "-" = some ("subtract", precAddition, true)
       ∧ opInfo "*" = some ("multiply", precMultiplication, true)
       ∧ opInfo "/" = some ("divide", precMultiplication, true)
       ∧ opInfo "mod" = some ("modulo", precMultiplication, true)
       ∧ opInfo "^" = some ("power", precPower, false))
    ∧ runScript toksAdd = .ok (.q ⟨7, none⟩)
    ∧ runScript toksPow = .ok (.q ⟨512, none⟩) := by
  refine ⟨?_, ⟨?_, ?_, ?_, ?_, ?_, ?_⟩, ?_, ?_⟩
  · intro fuel ctx reg minP expr tok ts name prec la hty hop
    rcases tok with ⟨ty, s, nv, ln, col⟩
    simp only [Token.type] at hty
    subst hty
    simp only [statementLoop, cur, isOperatorTok, hop]
    rw [if_pos trivial]
    by_cases h1 : prec < minP
    · rw [if_pos h1, if_neg (fun hc => absurd hc.1 (by omega))]
    · by_cases h2 : prec = minP ∧ la = true
      · rw [if_neg h1, if_pos h2, if_neg (fun hc => absurd (hc.2 h2.1) (by simp [h2.2]))]
      · rw [if_neg h1, if_neg h2,
          if_pos (⟨by omega, fun he => by
            cases la
            · rfl
            · exact absurd ⟨he, rfl⟩ h2⟩ :
              minP ≤ prec ∧ (prec = minP → la = false))]
        simp only [advance]
  all_goals with_unfolding_all rfl

/-- Witness for C1: at the concrete state where the current token is the
left-associative `+` and the minimum precedence is the (higher) power
precedence, the loop stops and returns the expression unchanged. -/
theorem parseStatement_precedence_climbing_witness :
    statementLoop 6 emptyCtx emptyReg precPower (.value 1 1 (.q ⟨7, none⟩))
        [opTok "+" 3] =
      .ok (.value 1 1 (.q ⟨7, none⟩), [opTok "+" 3]) := by
  have h := parseStatement_precedence_climbing.1 5 emptyCtx emptyReg precPower
    (.value 1 1 (.q ⟨7, none⟩)) (opTok "+" 3) [] "add" precAddition true rfl
    (by with_unfolding_all rfl)
  rw [h, if_neg]
  intro hc
  exact absurd hc.1 (by decide)

/-- C9: `Operations.modulo` returns `undefined` for every argument pair,
quantities included — it neither computes a result nor raises an error —
while the parser's operator switch maps the surface operator `mod` to a
`BinaryOperation` named `modulo` at multiplication precedence. -/
theorem modulo_returns_undefined :
    (∀ left right, Operations.modulo left right = .ok RVal.undefined)
    ∧ opInfo "mod" = some ("modulo", precMultiplication, true) :=
  ⟨fun _ _ => rfl, by with_unfolding_all rfl⟩

/-- C3: `parseExpression` classifies a word token in the fixed priority
order of the source dispatch: Call when the context registers a procedure
of that name, otherwise Access when it binds a variable of that name,
otherwise Unit when the registry recognizes the symbol, otherwise the
positioned grammar error. -/
theorem parseExpression_word_classification (fuel : Nat) (ctx : Context)
    (reg : Registry) (tok : Token) (rest : List Token)
    (h : tok.type = TokenType.word) :
    parseExpression (fuel + 1) ctx reg (tok :: rest) =
      if ctx.isProcedure tok.s then parseCall fuel ctx reg (tok :: rest)
      else if ctx.isVariable tok.s then parseAccess ctx (tok :: rest)
      else if (reg tok.s).isSome then parseUnit reg (tok :: rest)
      else .error ⟨tok.line, tok.column, .expectedExpression tok.s⟩ := by
  rcases tok with ⟨ty, s, nv, ln, col⟩
  simp only [Token.type] at h
  subst h
  cases hp : ctx.isProcedure s <;> cases hv : ctx.isVariable s <;>
    cases hu : (reg s).isSome <;>
    simp [parseExpression, cur, isExpressionTok, isTupleTok, isListTok, isMapTok,
      isConstantTok, isCallTok, isAccessTok, isUnitTok, isOpeningParenthesesTok,
      isOpeningListTok, isOpeningMapTok, isBracketsTok, isNumberTok, isStringTok,
      Token.s, Token.line, Token.column, hp, hv, hu]

/-- A context registering the single procedure `f`. -/
def procCtx : Context := ⟨fun s => s == "f", fun _ => false⟩

/-- The word token `f`. -/
def fTok : Token := ⟨.word, "f", 0, 1, 1⟩

/-- Witness for C3 at the word `f` under a context registering the
procedure `f`. -/
theorem parseExpression_word_classification_witness :
    parseExpression 5 procCtx emptyReg [fTok] =
      if procCtx.isProcedure fTok.s then parseCall 4 procCtx emptyReg [fTok]
      else if procCtx.isVariable fTok.s then parseAccess procCtx [fTok]
      else if (emptyReg fTok.s).isSome then parseUnit emptyReg [fTok]
      else .error ⟨fTok.line, fTok.column, .expectedExpression fTok.s⟩ :=
  parseExpression_word_classification 4 procCtx emptyReg fTok [] rfl

/-- C8 counterexample: the input `(1,)` — a trailing comma directly before
the closing parenthesis — parses successfully to a one-element tuple; the
claim asserts it fails with a parse error. -/
theorem parseTuple_trailingComma_counterexample :
    parseTuple 10 emptyCtx emptyReg
        [⟨.brackets, "(", 0, 1, 1⟩, ⟨.number, "", 1, 1, 2⟩,
         ⟨.separator, ",", 0, 1, 3⟩, ⟨.brackets, ")", 0, 1, 4⟩] =
      .ok (.tuple 1 1 [.value 1 2 (.q ⟨1, none⟩)], []) := by
  with_unfolding_all rfl

/-- C8 amended: `parseTuple` accepts the grammar extended with an optional
trailing comma — after a comma the element loop stops when no statement
follows and the closing parenthesis is accepted — so `(q,)` parses to the
one-element tuple for every numeric literal value. -/
theorem parseTuple_trailingComma_ok (v : ℚ) :
    parseTuple 10 emptyCtx emptyReg
        [⟨.brackets, "(", 0, 1, 1⟩, ⟨.number, "", v, 1, 2⟩,
         ⟨.separator, ",", 0, 1, 3⟩, ⟨.brackets, ")", 0, 1, 4⟩] =
      .ok (.tuple 1 1 [.value 1 2 (.q ⟨v, none⟩)], []) := by
  with_unfolding_all rfl

/-- C5: inside `parseUnit`, a following `/` operator token is consumed as
part of the unit expression exactly when the one-token lookahead is a
token the registry recognizes as a unit; otherwise the unit expression
ends with the `/` still unconsumed, to be taken by the statement loop as
the division operator (`divide`, multiplication precedence).  An adjacent
unit token (no `/`) joins the compound symbol with a blank — the
registry's multiplication spelling. -/
theorem parseUnit_slash_lookahead :
    (∀ reg acc (slashTok t2 : Token) rest,
      isOperatorTok slashTok (some "/") = true →
      isUnitTok reg slashTok = false →
      parseUnitLoop reg acc (slashTok :: t2 :: rest) =
        if isUnitTok reg t2 then parseUnitLoop reg (acc ++ "/" ++ t2.s) rest
        else (acc, slashTok :: t2 :: rest))
    ∧ (∀ reg acc (t : Token) ts,
        isOperatorTok t (some "/") = false →
        isUnitTok reg t = true →
        parseUnitLoop reg acc (t :: ts) = parseUnitLoop reg (acc ++ " " ++ t.s) ts)
    ∧ opInfo "/" = some ("divide", precMultiplication, true) := by
  refine ⟨?_, ?_, by with_unfolding_all rfl⟩
  · intro reg acc slashTok t2 rest h1 h2
    cases hu : isUnitTok reg t2 <;>
      simp [parseUnitLoop, h1, h2, hu]
  · intro reg acc t ts h1 h2
    cases ts with
    | nil => simp [parseUnitLoop, h2]
    | cons t2 rest => simp [parseUnitLoop, h1, h2]

/-- Witness for C5: a `/` whose lookahead is the registered unit `m`. -/
theorem parseUnit_slash_lookahead_witness :
    parseUnitLoop lengthReg "m" [opTok "/" 3, ⟨.word, "m", 0, 1, 4⟩] =
      if isUnitTok lengthReg ⟨.word, "m", 0, 1, 4⟩ then
        parseUnitLoop lengthReg ("m" ++ "/" ++ "m") []
      else ("m", [opTok "/" 3, ⟨.word, "m", 0, 1, 4⟩]) :=
  parseUnit_slash_lookahead.1 lengthReg "m" (opTok "/" 3) ⟨.word, "m", 0, 1, 4⟩ []
    (by with_unfolding_all rfl) (by with_unfolding_all rfl)

/-- C4: converting a quantity into another unit of the same category and
back recovers the original magnitude exactly (hence, a fortiori, within
floating-point tolerance), provided both resolved multipliers are
non-zero. -/
theorem convert_roundTrip (A B : SUnit) (m : ℚ)
    (hcat : A.typeOfMeasurement = B.typeOfMeasurement)
    (hA : factorToBase A ≠ 0) (hB : factorToBase B ≠ 0) :
    (Operations.convert (RVal.q ⟨m, some A⟩) B).bind
        (fun v => Operations.convert v A) = .ok (RVal.q ⟨m, some A⟩) := by
  have key : m * (factorToBase A / factorToBase B) * (factorToBase B / factorToBase A)
      = m := by
    field_simp
  simp only [Operations.convert, Quantity.convert]
  rw [if_pos hcat]
  simp only [Except.map, Except.bind]
  rw [if_pos hcat.symm]
  simp only [Except.map, key]

/-- Witness for C4: three meters to centimeters and back. -/
theorem convert_roundTrip_witness :
    (Operations.convert (RVal.q ⟨3, some mUnit⟩) cmUnit).bind
        (fun v => Operations.convert v mUnit) = .ok (RVal.q ⟨3, some mUnit⟩) :=
  convert_roundTrip mUnit cmUnit 3 rfl (by with_unfolding_all decide)
    (by with_unfolding_all decide)

/-- C7 counterexample: a word token absent from the registry (naming no
procedure and no variable) fails with the grammar error `Expected
expression`, not with the positioned `Unit not defined` error the claim
asserts for every unit-shaped unknown token. -/
theorem unknownUnit_grammarError_counterexample :
    parseExpression 5 emptyCtx emptyReg [⟨.word, "xyz", 0, 1, 1⟩] =
      .error ⟨1, 1, .expectedExpression "xyz"⟩
    ∧ ErrMsg.expectedExpression "xyz" ≠ ErrMsg.unitNotDefined "xyz" :=
  ⟨by with_unfolding_all rfl, by decide⟩

/-- C7 amended: an assembled compound unit symbol absent from the registry
fails inside `parseUnit` with the positioned `Unit not defined` error at
the start token, while a single unknown unit-shaped word (naming no
procedure or variable) fails with the positioned grammar error `Expected
expression`; in both cases parsing fails — the token is never treated as
an identifier and never silently ignored. -/
theorem unknownUnit_errors :
    (∀ reg (t : Token) ts,
      isUnitTok reg t = true →
      reg (parseUnitLoop reg t.s ts).1 = none →
      parseUnit reg (t :: ts) =
        .error ⟨t.line, t.column, .unitNotDefined (parseUnitLoop reg t.s ts).1⟩)
    ∧ (∀ fuel ctx reg (t : Token) ts,
        t.type = TokenType.word →
        ctx.isProcedure t.s = false → ctx.isVariable t.s = false →
        reg t.s = none →
        parseExpression (fuel + 1) ctx reg (t :: ts) =
          .error ⟨t.line, t.column, .expectedExpression t.s⟩) := by
  constructor
  · intro reg t ts h1 h2
    rcases hpu : parseUnitLoop reg t.s ts with ⟨us, ts2⟩
    rw [hpu] at h2
    simp only at h2
    simp [parseUnit, cur, advance, h1, hpu, h2]
  · intro fuel ctx reg t ts hty hp hv hu
    rcases t with ⟨ty, s, nv, ln, col⟩
    simp only [Token.type] at hty
    subst hty
    simp [parseExpression, cur, isExpressionTok, isTupleTok, isListTok, isMapTok,
      isConstantTok, isCallTok, isAccessTok, isUnitTok, isOpeningParenthesesTok,
      isOpeningListTok, isOpeningMapTok, isBracketsTok, isNumberTok, isStringTok,
      Token.s, Token.line, Token.column, hp, hv, hu]

/-- Witness for the amended C7 theorem: the compound symbol `m m` is not
registered and the word `xyz` is unknown everywhere. -/
theorem unknownUnit_errors_witness :
    parseUnit lengthReg [⟨.word, "m", 0, 1, 1⟩, ⟨.word, "m", 0, 1, 3⟩] =
      .error ⟨1, 1, .unitNotDefined "m m"⟩
    ∧ parseExpression 5 emptyCtx emptyReg [⟨.word, "xyz", 0, 2, 4⟩] =
      .error ⟨2, 4, .expectedExpression "xyz"⟩ := by
  constructor
  · have h := unknownUnit_errors.1 lengthReg ⟨.word, "m", 0, 1, 1⟩
      [⟨.word, "m", 0, 1, 3⟩] (by with_unfolding_all rfl) (by with_unfolding_all rfl)
    rw [h]
    with_unfolding_all rfl
  · exact unknownUnit_errors.2 4 emptyCtx emptyReg ⟨.word, "xyz", 0, 2, 4⟩ []
      rfl rfl rfl rfl

/-- C6 counterexample: looking up a name unbound in the whole scope chain
with no default completes normally and returns `undefined` — `Scope.get`
raises no error, contradicting the claim that such a lookup is a hard
failure. -/
theorem scopeGet_missing_counterexample :
    Scope.get (.root []) "x" .undefined = .undefined := by
  with_unfolding_all rfl

/-- C6 amended: when a name is unbound in the whole scope chain (the walk
yields `undefined`), `Scope.get` silently returns `undefined` if the
caller supplied no default and returns the default exactly when one was
supplied; the hard failure for missing bindings lives in the separate
`required` accessors, not in `get` itself. -/
theorem scopeGet_missing_silent (s : Scope) (name : String) (d : RVal)
    (h : s.lookupChain name = .undefined) :
    Scope.get s name d = if d = .undefined then .undefined else d := by
  unfold Scope.get
  rw [h]
  by_cases hd : d = .undefined <;> simp [hd]

/-- Witness for the amended C6 theorem at a two-frame chain and a supplied
default. -/
theorem scopeGet_missing_silent_witness :
    Scope.get (.child [] (.root [("y", .q ⟨1, none⟩)])) "x" (.str "fallback") =
      if (RVal.str "fallback") = .undefined then .undefined else .str "fallback" :=
  scopeGet_missing_silent (.child [] (.root [("y", .q ⟨1, none⟩)])) "x"
    (.str "fallback") (by with_unfolding_all rfl)

end CachePicker
